import Mathlib

/-!
Verification development for the xgr-node transaction execution core.

The Go sources are shallowly embedded: pure functions become Lean functions,
stateful code becomes explicit state passing, Go `uint64` arithmetic is `Nat`
with an explicit `% 2 ^ 64` where the source can wrap (chains of `+` and `*`
wrapped once at the end are equal to wrapping at every step), and fallible
code returns `Except`.  Addresses and hashes are abstracted as `Nat`
identifiers: only equality on them is ever used by the embedded code.
-/

/-- Wrap a natural number to Go `uint64` range (overflow semantics). -/
def w64 (n : Nat) : Nat := n % 2 ^ 64

/-- Largest Go `uint64` value (`math.MaxUint64`). -/
def maxU64 : Nat := 2 ^ 64 - 1

/-- Pointwise update of a balance-style map. -/
def setAt (f : Nat → Nat) (a v : Nat) : Nat → Nat := fun x => if x = a then v else f x

/-! ## Engine-execute precompile: fee accounting (src/unnamed/part_010)

Direct ports of `calldataCostUnits`, `logCostUnits`, `callOverheadUnits`,
`pad32`, `dynLen`, `calcEngineMetaLen`, `calcEngineExtrasLen`, `calcFee` and
the three `feeCalc` methods.  Byte strings are `List Nat`; the zero address is
encoded as the `Nat` value `0`. -/

/-- Port of `calldataCostUnits`: 4 per zero byte, 16 per non-zero byte. -/
def calldataCostUnits (b : List Nat) : Nat :=
  b.foldl (fun c x => c + if x = 0 then 4 else 16) 0

/-- Port of `logCostUnits`: `375 + 375·topics + 8·dataLen`. -/
def logCostUnits (topics dataLen : Nat) : Nat :=
  375 + 375 * topics + 8 * dataLen

/-- Port of `callOverheadUnits`: zero when there is no target or no gas limit,
otherwise `700 + 2600 + 3·ceil(dataLen/32)`. -/
def callOverheadUnits (toAddr gasLimit dataLen : Nat) : Nat :=
  if toAddr = 0 ∨ gasLimit = 0 then 0
  else 700 + 2600 + 3 * ((dataLen + 31) / 32)

/-- Port of `pad32`: round a byte length up to a multiple of 32. -/
def abiPad32 (n : Nat) : Nat := ((n + 31) / 32) * 32

/-- Port of `dynLen`: 32-byte length word plus padded payload. -/
def dynLen (n : Nat) : Nat := 32 + abiPad32 n

/-- Port of `calcEngineMetaLen`: 13 head words plus the five dynamic tails
(`ostcId`, `stepId`, `payload`, `apiSaves`, `contractSaves`). -/
def calcEngineMetaLen (ostcIdLen stepIdLen payloadLen apiSavesLen contractSavesLen : Nat) : Nat :=
  32 * 13 + (dynLen ostcIdLen + dynLen stepIdLen + dynLen payloadLen +
    dynLen apiSavesLen + dynLen contractSavesLen)

/-- Port of `calcEngineExtrasLen`: 2 head words plus the `extras` tail. -/
def calcEngineExtrasLen (extrasLen : Nat) : Nat :=
  32 * 2 + dynLen extrasLen

/-- Decoded `ENGINE_EXECUTE(grant, call, meta)` arguments, keeping exactly the
fields the precompile reads.  Dynamic byte/string fields are kept as their
lengths, which is all the fee arithmetic consumes; `inputBytes` is the full
calldata of the invocation.  A `0` in `callTo` encodes the zero address and a
`0` in `maxFeePerGas` encodes a nil or zero cap (the code treats them alike). -/
structure ExecInput where
  grantFrom : Nat
  sessionId : Nat
  ostcIdLen : Nat
  stepIdLen : Nat
  payloadLen : Nat
  apiSavesLen : Nat
  contractSavesLen : Nat
  extrasLen : Nat
  callTo : Nat
  callDataLen : Nat
  valueWei : Nat
  gasLimit : Nat
  validationGas : Nat
  maxFeePerGas : Nat
  deadline : Nat
  grantFeeSeconds : Nat
  grantFeePerYearWei : Nat
  inputBytes : List Nat

/-- Port of the `feeCalc` record. -/
structure FeeCalc where
  calldata : Nat
  metaLen : Nat
  extrasLen : Nat
  callOverhead : Nat
  execLimit : Nat
  validationGas : Nat

/-- Port of `calcFee` over the decoded arguments. -/
def calcFee (inp : ExecInput) : FeeCalc :=
  { calldata := calldataCostUnits inp.inputBytes
    metaLen := calcEngineMetaLen inp.ostcIdLen inp.stepIdLen inp.payloadLen
      inp.apiSavesLen inp.contractSavesLen
    extrasLen := calcEngineExtrasLen inp.extrasLen
    callOverhead := callOverheadUnits inp.callTo inp.gasLimit inp.callDataLen
    execLimit := if inp.callTo ≠ 0 ∧ 0 < inp.gasLimit then inp.gasLimit else 0
    validationGas := inp.validationGas }

/-- Port of `feeCalc.logUnits`. -/
def FeeCalc.logUnits (f : FeeCalc) : Nat :=
  logCostUnits 1 f.metaLen + logCostUnits 1 f.extrasLen

/-- Mathematical (unwrapped) value of `feeCalc.evmTxUnits`. -/
def FeeCalc.evmTxUnitsRaw (f : FeeCalc) : Nat :=
  21000 + f.calldata + f.logUnits + f.callOverhead + f.execLimit

/-- Port of `feeCalc.precompileGasUnits` (`engineOverheadGas` is 0); the Go
computation is in `uint64`, wrapped once at the end. -/
def FeeCalc.precompileGasUnits (f : FeeCalc) : Nat :=
  w64 (f.validationGas + f.logUnits + f.callOverhead + f.execLimit)

/-- Port of `feeCalc.evmTxUnits` (`uint64`, wrapped). -/
def FeeCalc.evmTxUnits (f : FeeCalc) : Nat := w64 f.evmTxUnitsRaw

/-- Port of `feeCalc.totalTxUnits` (`uint64`, wrapped). -/
def FeeCalc.totalTxUnits (f : FeeCalc) : Nat := w64 (f.evmTxUnitsRaw + f.validationGas)

/-! ## Engine-execute precompile: `run` (src/unnamed/part_010)

State visible to the precompile: its own `kNext` storage counters, account
balances, and the transaction log buffer.  The inner CALL is a parameter of
the model (it executes arbitrary EVM code); theorems constrain it only by
properties the surrounding system guarantees. -/

/-- Kinds of logs the engine-execute precompile itself emits. -/
inductive ELogKind where
  | grantFeeCharged (payer engine seconds perYearWei fee : Nat)
  | engineMeta (sessionId : Nat) (execResult : Bool)
  | engineExtras (gasUsed : Nat)
  deriving DecidableEq

/-- A log entry: emitting address plus payload. -/
structure ELog where
  addr : Nat
  kind : ELogKind
  deriving DecidableEq

/-- Errors the engine-execute precompile can return. -/
inductive EngErr where
  | invalidInput
  | unauthorizedCaller
  | notEnoughFunds
  | insufficientBalance
  deriving DecidableEq

/-- State threaded through the engine-execute precompile: per-user `kNext`
storage (0 = unset slot), balances, and the log buffer. -/
structure EngineState where
  knext : Nat → Nat
  bal : Nat → Nat
  logs : List ELog

/-- Transaction context fields the precompile reads, plus the result of
`authorizeEngineCaller` (a registry-storage lookup outside this model) and the
precompile's own address `contracts.EngineExecutePrecompile`. -/
structure ECtx where
  gasPrice : Nat
  baseFee : Option Nat
  timestamp : Nat
  selfAddr : Nat
  callerAuthorized : Bool
  engineAddr : Nat

/-- Port of `Transition.Transfer` restricted to balances: `SubBalance` fails
when the payer lacks funds, then `AddBalance` credits the payee. -/
def engTransfer (st : EngineState) (src dst amt : Nat) : Except EngErr EngineState :=
  if st.bal src < amt then .error .insufficientBalance
  else
    let b1 := setAt st.bal src (st.bal src - amt)
    .ok { st with bal := setAt b1 dst (b1 dst + amt) }

/-- Port of `billGrants`: pro-rata yearly fee, rounded up, transferred from
the payer to the engine account. -/
def engineBillGrants (st : EngineState) (payer engine seconds perYearWei : Nat) :
    Except EngErr (Nat × EngineState) :=
  if seconds = 0 then .ok (0, st)
  else
    let fee := (perYearWei * seconds + (31536000 - 1)) / 31536000
    if fee = 0 then .ok (fee, st)
    else
      match engTransfer st payer engine fee with
      | .error e => .error e
      | .ok st2 => .ok (fee, st2)

/-- Grant-billing step of `engineExecute.run`: when `grantFeeSeconds > 0`,
bill the grant and emit the grant-fee log (`logGrantFeeCharged`). -/
def engineBillPhase (ctx : ECtx) (inp : ExecInput) (st : EngineState) :
    Except EngErr EngineState :=
  if 0 < inp.grantFeeSeconds then
    match engineBillGrants st inp.grantFrom ctx.engineAddr inp.grantFeeSeconds
        inp.grantFeePerYearWei with
    | .error e => .error e
    | .ok (fee, st2) =>
      .ok { st2 with logs := st2.logs ++
        [⟨ctx.selfAddr, .grantFeeCharged inp.grantFrom ctx.engineAddr
            inp.grantFeeSeconds inp.grantFeePerYearWei fee⟩] }
  else .ok st

/-- Session-monotonicity guard of `engineExecute.run`: `curNext` is the stored
counter with 0/unset read as 1; a strictly greater session id is rejected, an
equal one persists `kNext ← sessionId + 1` at once, a smaller one is a
follow-up with no state change. -/
def engineSessionPhase (inp : ExecInput) (st : EngineState) :
    Except EngErr EngineState :=
  let user := inp.grantFrom
  let curNext := max 1 (st.knext user)
  if curNext < inp.sessionId then .error .invalidInput
  else if inp.sessionId = curNext then
    .ok { st with knext := fun a => if a = user then inp.sessionId + 1 else st.knext a }
  else .ok st

/-- Deadline, gas-price and fee-cap guards of `engineExecute.run`, in source
order: deadline, positive paid price, base-fee cap logic, positive effective
cap, and the `to = 0 ⇒ gasLimit = 0` invariant. -/
def engineGuardPhase (ctx : ECtx) (inp : ExecInput) : Except EngErr Unit :=
  if inp.deadline ≠ 0 ∧ inp.deadline < ctx.timestamp then .error .unauthorizedCaller
  else if ctx.gasPrice = 0 then .error .invalidInput
  else
    let capStep : Except EngErr Nat :=
      match ctx.baseFee with
      | some bf =>
        if inp.maxFeePerGas = 0 then .ok ctx.gasPrice
        else if inp.maxFeePerGas < bf then .error .invalidInput
        else .ok inp.maxFeePerGas
      | none => .ok inp.maxFeePerGas
    match capStep with
    | .error e => .error e
    | .ok mf =>
      if mf = 0 then .error .invalidInput
      else if inp.callTo = 0 ∧ inp.gasLimit ≠ 0 then .error .invalidInput
      else .ok ()

/-- Worst-case cost checked by the preflight: billed units times the paid
price, plus the transferred value, plus (when billing ran) the grant fee. -/
def engineWorstTotal (inp : ExecInput) (paid : Nat) : Nat :=
  let base := (calcFee inp).totalTxUnits * paid + inp.valueWei
  if 0 < inp.grantFeeSeconds then
    base + (inp.grantFeePerYearWei * inp.grantFeeSeconds + (31536000 - 1)) / 31536000
  else base

/-- Balance preflight of `engineExecute.run`. -/
def enginePreflight (ctx : ECtx) (inp : ExecInput) (st : EngineState) :
    Except EngErr Unit :=
  if st.bal inp.grantFrom < engineWorstTotal inp ctx.gasPrice then .error .notEnoughFunds
  else .ok ()

/-- Everything `engineExecute.run` does before the inner CALL, in source
order: caller authorization, grant billing, session guard (with the immediate
`kNext` persist), deadline/fee guards, preflight. -/
def enginePreCall (ctx : ECtx) (inp : ExecInput) (st : EngineState) :
    Except EngErr EngineState :=
  if ctx.callerAuthorized = false then .error .invalidInput
  else
    match engineBillPhase ctx inp st with
    | .error e => .error e
    | .ok st1 =>
      match engineSessionPhase inp st1 with
      | .error e => .error e
      | .ok st2 =>
        match engineGuardPhase ctx inp with
        | .error e => .error e
        | .ok _ =>
          match enginePreflight ctx inp st2 with
          | .error e => .error e
          | .ok _ => .ok st2

/-- Output tuple of `engineExecute.run`:
`(success, totalUnits, evmFeeRefund, engineFeeWei)`. -/
structure RunOut where
  success : Bool
  totalUnits : Nat
  evmRefund : Nat
  engineFee : Nat
  deriving DecidableEq

/-- Everything `engineExecute.run` does after the inner CALL: refund transfer
to the engine account, then the `EngineMeta` and `EngineExtrasV2` logs. -/
def enginePostCall (ctx : ECtx) (inp : ExecInput) (st : EngineState)
    (gasUsed : Nat) (success : Bool) : Except EngErr (EngineState × RunOut) :=
  let fc := calcFee inp
  let evmRefund := fc.evmTxUnits * ctx.gasPrice
  let engineFee := inp.validationGas * ctx.gasPrice
  let totalPay := evmRefund + engineFee
  match (if 0 < totalPay then engTransfer st inp.grantFrom ctx.engineAddr totalPay
         else .ok st) with
  | .error e => .error e
  | .ok st1 =>
    let st2 := { st1 with logs := st1.logs ++
      [⟨ctx.selfAddr, .engineMeta inp.sessionId success⟩,
       ⟨ctx.selfAddr, .engineExtras gasUsed⟩] }
    .ok (st2, ⟨success, fc.totalTxUnits, evmRefund, engineFee⟩)

/-- Port of the `ENGINE_EXECUTE` branch of `engineExecute.run` after a
successful ABI decode.  `inner` models `host.Callx` on the built contract
call; it returns the post-call state, the gas used and the success flag.  The
inner CALL only happens when a target and a gas limit are present; otherwise
the step is log-only and marked unsuccessful. -/
def engineExecuteRun (inner : EngineState → EngineState × Nat × Bool)
    (ctx : ECtx) (inp : ExecInput) (st : EngineState) :
    Except EngErr (EngineState × RunOut) :=
  match enginePreCall ctx inp st with
  | .error e => .error e
  | .ok st1 =>
    let step := if 0 < inp.gasLimit ∧ inp.callTo ≠ 0 then inner st1 else (st1, 0, false)
    enginePostCall ctx inp step.1 step.2.1 step.2.2

/-- Port of `engineExecute.gas`.  ABI decoding itself is outside the model:
`decoded` is the decode result (`none` for any decode or shape failure), and
`selectorOk` says whether the 4-byte selector equals `ENGINE_EXECUTE`. -/
def engineExecuteGas (inputLen : Nat) (selectorOk : Bool) (decoded : Option ExecInput) : Nat :=
  if inputLen < 4 then 0
  else if selectorOk = false then 0
  else
    match decoded with
    | none => 21000
    | some inp => (calcFee inp).precompileGasUnits

/-! ## Transition fee split (src/unnamed/part_009, `Transition.apply`)

Port of the fee-split tail of `apply`: fixed 1000 Gwei burn clamped to the
raw fee, registry-driven donation configuration with the chain defaults
(`DefaultBurnedAddress = 0x…0666`, `DefaultDonationAddress = DefaultBurnedAddress`,
`DefaultDonationPercent = 15`), and crediting of the three shares. -/

/-- The fixed burn amount: 1000 Gwei. -/
def burnFixedWei : Nat := 1000 * 1000000000

/-- Chain default `DefaultBurnedAddress` (`0x…0666`). -/
def defaultBurnedAddress : Nat := 0x666

/-- Chain default `DefaultDonationAddress` (equal to the burned address). -/
def defaultDonationAddress : Nat := defaultBurnedAddress

/-- Chain default `DefaultDonationPercent`. -/
def defaultDonationPercent : Nat := 15

/-- Registry view consumed by the fee split: whether the registry contract is
present (non-zero address with non-empty code), and the raw contents of its
donation-address and donation-percent storage slots. -/
structure RegistryView where
  present : Bool
  donationAddrSlot : Nat
  donationPctSlot : Nat

/-- Result of the fee-split computation. -/
structure FeeSplitResult where
  burned : Nat
  totalFee : Nat
  donation : Nat
  validator : Nat
  donationAddr : Nat
  burnedAddr : Nat
  donationPercent : Nat

/-- Donation configuration resolution of `Transition.apply`: keep the chain
defaults when the registry is absent; otherwise accept the percent slot when
it fits `uint64` and is at most 100, force percent 0 when the configured
donation address is zero, and otherwise take the configured address.  Returns
`(donationAddr, donationPercent)`. -/
def feeSplitConfig (reg : RegistryView) : Nat × Nat :=
  if reg.present = true then
    if reg.donationAddrSlot = 0 then (defaultDonationAddress, (0 : Nat))
    else (reg.donationAddrSlot,
      if reg.donationPctSlot < 2 ^ 64 ∧ reg.donationPctSlot ≤ 100
      then reg.donationPctSlot else defaultDonationPercent)
  else (defaultDonationAddress, defaultDonationPercent)

/-- Port of the fee-split arithmetic in `Transition.apply`: subtract the
clamped fixed burn from `gas_used · gas_price`, resolve the donation
address/percent from the registry (keeping defaults when absent, forcing
percent 0 when the configured address is zero), split the remainder. -/
def computeFeeSplit (gasUsed gasPrice : Nat) (reg : RegistryView) : FeeSplitResult :=
  let totalFeeRaw := gasUsed * gasPrice
  let pair :=
    if totalFeeRaw ≤ burnFixedWei then (totalFeeRaw, 0)
    else (burnFixedWei, totalFeeRaw - burnFixedWei)
  let burnedApplied := pair.1
  let totalFee := pair.2
  let cfg := feeSplitConfig reg
  let donationAddr := cfg.1
  let pct := cfg.2
  let donation0 := totalFee * pct / 100
  let donation := if totalFee < donation0 then totalFee else donation0
  let validator := totalFee - donation
  { burned := burnedApplied, totalFee := totalFee, donation := donation,
    validator := validator, donationAddr := donationAddr,
    burnedAddr := defaultBurnedAddress, donationPercent := pct }

/-- Port of the crediting tail of `Transition.apply`: each positive share is
added to its account (donation address, coinbase, burned address in source
order). -/
def creditFees (bal : Nat → Nat) (coinbase : Nat) (r : FeeSplitResult) : Nat → Nat :=
  let b1 := if 0 < r.donation then setAt bal r.donationAddr (bal r.donationAddr + r.donation)
            else bal
  let b2 := if 0 < r.validator then setAt b1 coinbase (b1 coinbase + r.validator) else b1
  if 0 < r.burned then setAt b2 r.burnedAddr (b2 r.burnedAddr + r.burned) else b2

/-! ## Intrinsic gas (src/unnamed/part_009, `TransactionGasCost`) -/

/-- Transaction kinds of the node (`LegacyTx`, `AccessListTx`,
`DynamicFeeTx`, `StateTx`). -/
inductive TxType where
  | legacy
  | accessListTx
  | dynamicFee
  | stateTx
  deriving DecidableEq

/-- The transaction fields `TransactionGasCost` reads: creation flag, payload
bytes, type, and the access list as (address, storage-key list) tuples. -/
structure GasTx where
  isCreation : Bool
  input : List Nat
  txType : TxType
  accessTuples : List (Nat × List Nat)

/-- Payload component of `TransactionGasCost` (the `len(payload) > 0` block):
Go's explicit `ErrIntrinsicGasOverflow` checks are `.error ()`;
`nonZeroCost` is passed in (68, or 16 under Istanbul). -/
def tgcPayload (cost0 : Nat) (payload : List Nat) (nonZeroCost : Nat) : Except Unit Nat :=
  if 0 < payload.length then
    if (maxU64 - cost0) / nonZeroCost < payload.length - payload.count 0 then .error ()
    else
      if (maxU64 - (cost0 + (payload.length - payload.count 0) * nonZeroCost)) / 4 <
          payload.count 0 then .error ()
      else .ok (cost0 + (payload.length - payload.count 0) * nonZeroCost +
        payload.count 0 * 4)
  else .ok cost0

/-- Init-code component of `TransactionGasCost` (EIP-3860): 2 per 32-byte
word, with the overflow check. -/
def tgcInitCode (c2 : Nat) (isCreation isEIP3860 : Bool) (len : Nat) : Except Unit Nat :=
  if isCreation = true ∧ isEIP3860 = true then
    if (maxU64 - c2) / 2 < (len + 31) / 32 then .error ()
    else .ok (c2 + ((len + 31) / 32) * 2)
  else .ok c2

/-- Access-list component of `TransactionGasCost` (EIP-2930): plain Go
`uint64` arithmetic with no overflow check, so it wraps — only `+` and `*`
occur, hence wrapping once at the end equals wrapping each operation. -/
def tgcAccess (c3 : Nat) (isEIP2930 : Bool) (t : TxType) (acc : List (Nat × List Nat)) : Nat :=
  if isEIP2930 = true ∧ (t = TxType.accessListTx ∨ t = TxType.dynamicFee) then
    w64 (c3 + (acc.length * 2400 + (acc.map (fun p => p.2.length)).sum * 1900))
  else c3

/-- Port of `TransactionGasCost`: base cost (53000 for creation under
Homestead, else 21000), then the payload, init-code and access-list
components in source order. -/
def transactionGasCost (tx : GasTx) (isHomestead isIstanbul isEIP3860 isEIP2930 : Bool) :
    Except Unit Nat :=
  match tgcPayload (if tx.isCreation = true ∧ isHomestead = true then 53000 else 21000)
      tx.input (if isIstanbul = true then 16 else 68) with
  | .error e => .error e
  | .ok c2 =>
    match tgcInitCode c2 tx.isCreation isEIP3860 tx.input.length with
    | .error e => .error e
    | .ok c3 => .ok (tgcAccess c3 isEIP2930 tx.txType tx.accessTuples)

/-- Go `uint64` subtraction `a - b` (wrapping), for operands below `2 ^ 64`.
`Transition.apply` computes `gasLeft := msg.Gas - intrinsicGasCost` this way
and detects underflow by `gasLeft > msg.Gas`. -/
def wsub64 (a b : Nat) : Nat := (a + 2 ^ 64 - b) % 2 ^ 64

/-! ## Journaled state, access list and call frames
(src/unnamed/part_009 `applyCall`/`applyCreate`, src/unnamed/part_010 `AccessList`)

The `Txn` journal implementation is not part of the published sources; its
contract is specified.  Modelled from the spec: "Snapshot() returns an opaque
identifier that names the current journal depth. RevertToSnapshot(id) discards
all mutations and logs recorded after id", and the design note "Model as a
monotone journal with an id = current length; revert = truncate".  The access
list and the two frame functions are ported from the sources. -/

/-- Account fields the modelled frames touch. -/
structure Acct where
  nonce : Nat
  bal : Nat
  hasCode : Bool
  touched : Bool
  deriving DecidableEq

/-- World state: account contents per address. -/
def World : Type := Nat → Acct

/-- Journal mutations recorded by the host operations the frames use. -/
inductive Mut where
  | touch (a : Nat)
  | setNonce (a n : Nat)
  | addBal (a amt : Nat)
  | subBal (a amt : Nat)
  | create (a : Nat)
  | setCode (a : Nat)
  deriving DecidableEq

/-- Effect of one journal mutation on the world. -/
def Mut.apply (m : Mut) (w : World) : World :=
  match m with
  | .touch a => fun x => if x = a then { w a with touched := true } else w x
  | .setNonce a n => fun x => if x = a then { w a with nonce := n } else w x
  | .addBal a amt => fun x => if x = a then { w a with bal := (w a).bal + amt } else w x
  | .subBal a amt => fun x => if x = a then { w a with bal := (w a).bal - amt } else w x
  | .create a => fun x => if x = a then Acct.mk 0 (w a).bal false (w a).touched else w x
  | .setCode a => fun x => if x = a then { w a with hasCode := true } else w x

/-- Replay a mutation list over a world. -/
def applyMuts (w : World) : List Mut → World
  | [] => w
  | m :: ms => applyMuts (m.apply w) ms

/-- Modelled from the spec: the `Txn` journal over a block snapshot — a base
world plus an append-only mutation list. -/
structure Txn where
  base : World
  journal : List Mut

/-- Modelled from the spec: `Snapshot()` is the current journal length. -/
def Txn.snapshotId (t : Txn) : Nat := t.journal.length

/-- Modelled from the spec: `RevertToSnapshot(id)` truncates the journal. -/
def Txn.revertTo (t : Txn) (id : Nat) : Txn := { t with journal := t.journal.take id }

/-- Append one mutation to the journal. -/
def Txn.push (t : Txn) (m : Mut) : Txn := { t with journal := t.journal ++ [m] }

/-- Current world of a journaled state. -/
def Txn.world (t : Txn) : World := applyMuts t.base t.journal

/-- Host `Transfer` over the journal: fails when the payer lacks balance,
otherwise journals the debit and the credit. -/
def txnTransfer (t : Txn) (src dst amt : Nat) : Except Unit Txn :=
  if (t.world src).bal < amt then .error ()
  else .ok ((t.push (.subBal src amt)).push (.addBal dst amt))

/-- Host `IncrNonce` over the journal: fails on `uint64` wrap
(`ErrNonceUintOverflow`), otherwise journals the incremented nonce. -/
def txnIncrNonce (t : Txn) (a : Nat) : Except Unit Txn :=
  if (t.world a).nonce = maxU64 then .error ()
  else .ok (t.push (.setNonce a ((t.world a).nonce + 1)))

/-- Port of `Transition.hasCodeOrNonce`. -/
def hasCodeOrNonce (t : Txn) (a : Nat) : Bool :=
  (t.world a).nonce ≠ 0 ∨ (t.world a).hasCode

/-- Port of the `AccessList` content (warm addresses and slots) as
characteristic functions; Go map pointers have value semantics here, so
`Copy` is the identity and `RevertTo` returns the snapshot value. -/
structure AccessList where
  addresses : Nat → Bool
  slots : Nat → Nat → Bool

/-- Port of `AccessList.Copy` (deep copy of both maps). -/
def AccessList.copy (al : AccessList) : AccessList := al

/-- Port of `AccessList.RevertTo`: the content becomes the snapshot content. -/
def AccessList.revertTo (_ snapshot : AccessList) : AccessList := snapshot

/-- Port of `AccessList.ContainsAddress`. -/
def AccessList.containsAddress (al : AccessList) (a : Nat) : Bool := al.addresses a

/-- Port of `AccessList.AddAddress` (returns the new list and the
`changed` flag). -/
def AccessList.addAddress (al : AccessList) (a : Nat) : AccessList × Bool :=
  if al.containsAddress a then (al, false)
  else ({ al with addresses := fun x => if x = a then true else al.addresses x }, true)

/-- Port of `AccessList.ContainsSlot`. -/
def AccessList.containsSlot (al : AccessList) (a s : Nat) : Bool := al.slots a s

/-- Port of `AccessList.AddSlot`. -/
def AccessList.addSlot (al : AccessList) (a s : Nat) : AccessList × Bool × Bool :=
  let p := al.addAddress a
  if p.1.slots a s then (p.1, p.2, false)
  else ({ p.1 with slots := fun x y => if x = a ∧ y = s then true else p.1.slots x y },
    p.2, true)

/-- Membership inclusion between two access lists. -/
def AccessList.le (a b : AccessList) : Prop :=
  (∀ x, a.addresses x = true → b.addresses x = true) ∧
  (∀ x s, a.slots x s = true → b.slots x s = true)

/-- Errors of a call/create frame. -/
inductive XErr where
  | depth
  | insufficientBalance
  | collision
  | nonceOverflow
  | outOfGas
  | maxCodeSize
  | codeStoreOutOfGas
  | other (n : Nat)
  deriving DecidableEq

/-- Execution result of a frame: gas left, length of the return value, and
error, mirroring the `runtime.ExecutionResult` fields the frames use. -/
structure XRes where
  gasLeft : Nat
  retLen : Nat
  err : Option XErr
  deriving DecidableEq

/-- Port of `ExecutionResult.Failed`. -/
def XRes.failed (r : XRes) : Bool := r.err.isSome

/-- Contract fields read by `applyCall`/`applyCreate`.  `codeLen` is the
init-code length for creations. -/
structure XContract where
  depth : Nat
  caller : Nat
  address : Nat
  value : Nat
  gas : Nat
  codeLen : Nat

/-- Outcome of a frame: journaled state, access list, result. -/
structure FrameOut where
  t : Txn
  al : AccessList
  res : XRes

/-- Port of `Transition.applyCall`, with the callee execution (`t.run`)
abstracted as the `run` parameter.  `isCall` is `callType == runtime.Call`
(the only type that transfers value); `eip2929` controls the access-list
snapshot exactly as in the source. -/
def applyCall (run : Txn → AccessList → FrameOut) (eip2929 : Bool)
    (c : XContract) (isCall : Bool) (t : Txn) (al : AccessList) : FrameOut :=
  if 1024 + 1 < c.depth then ⟨t, al, ⟨c.gas, 0, some .depth⟩⟩
  else
    let snapshot := t.snapshotId
    let alSnap := if eip2929 = true then some al.copy else none
    let t1 := t.push (.touch c.address)
    match (if isCall = true then txnTransfer t1 c.caller c.address c.value else .ok t1) with
    | .error _ =>
      let t2 := t1.revertTo snapshot
      let al2 := match alSnap with | some s => al.revertTo s | none => al
      ⟨t2, al2, ⟨c.gas, 0, some .insufficientBalance⟩⟩
    | .ok t2 =>
      let out := run t2 al
      if out.res.failed then
        let t3 := out.t.revertTo snapshot
        let al3 := match alSnap with | some s => out.al.revertTo s | none => out.al
        ⟨t3, al3, out.res⟩
      else out

/-- Port of `Transition.applyCreate` with the init-code execution abstracted
as `run`.  Mirrors the source's ordering: depth guard, caller nonce increment,
collision check, snapshot, EIP-3860 oversize abort, EIP-158 account creation,
value transfer, execution, and the EIP-158 / code-store fee tail.  Allow- and
block-lists are absent (nil) in this model. -/
def applyCreate (run : Txn → AccessList → FrameOut)
    (eip2929 eip3860 eip158 homestead : Bool)
    (c : XContract) (t : Txn) (al : AccessList) : FrameOut :=
  let gasLimit := c.gas
  if 1024 + 1 < c.depth then ⟨t, al, ⟨gasLimit, 0, some .depth⟩⟩
  else
    match txnIncrNonce t c.caller with
    | .error _ => ⟨t, al, ⟨0, 0, some .nonceOverflow⟩⟩
    | .ok t1 =>
      if hasCodeOrNonce t1 c.address then ⟨t1, al, ⟨0, 0, some .collision⟩⟩
      else
        let snapshot := t1.snapshotId
        let alSnap := if eip2929 = true then some al.copy else none
        if eip3860 = true ∧ 1 < c.depth ∧ 2 * 24576 < c.codeLen then
          let al2 := match alSnap with | some s => al.revertTo s | none => al
          ⟨t1, al2, ⟨0, 0, some .outOfGas⟩⟩
        else
          match (if eip158 = true then txnIncrNonce (t1.push (.create c.address)) c.address
                 else .ok t1) with
          | .error _ => ⟨t1, al, ⟨0, 0, some .nonceOverflow⟩⟩
          | .ok t2 =>
            match txnTransfer t2 c.caller c.address c.value with
            | .error _ => ⟨t2, al, ⟨gasLimit, 0, some .insufficientBalance⟩⟩
            | .ok t3 =>
              let out := run t3 al
              if out.res.failed then
                let t4 := out.t.revertTo snapshot
                let al4 := match alSnap with | some s => out.al.revertTo s | none => out.al
                ⟨t4, al4, out.res⟩
              else if eip158 = true ∧ 24576 < out.res.retLen then
                let t4 := out.t.revertTo snapshot
                let al4 := match alSnap with | some s => out.al.revertTo s | none => out.al
                ⟨t4, al4, ⟨0, 0, some .maxCodeSize⟩⟩
              else
                let gasCost := out.res.retLen * 200
                if out.res.gasLeft < gasCost then
                  if homestead = true then
                    let t4 := out.t.revertTo snapshot
                    let al4 := match alSnap with | some s => out.al.revertTo s | none => out.al
                    ⟨t4, al4, ⟨0, 0, some .codeStoreOutOfGas⟩⟩
                  else ⟨out.t, out.al, ⟨out.res.gasLeft, 0, some .codeStoreOutOfGas⟩⟩
                else
                  ⟨out.t.push (.setCode c.address), out.al,
                    ⟨out.res.gasLeft - gasCost, out.res.retLen, none⟩⟩

/-! ## Receipt assembly (src/unnamed/part_009, `Transition.Write`) -/

/-- A receipt-level log: emitting address, topics, raw data bytes. -/
structure RLog where
  addr : Nat
  topics : List Nat
  data : List Nat
  deriving DecidableEq

/-- Big-endian 32-byte encoding of a value (`LeftPadBytes(v.Bytes(), 32)`). -/
def be32 (n : Nat) : List Nat :=
  (List.range 32).map (fun i => n / 256 ^ (31 - i) % 256)

/-- The distinguished fee-split log address `0x…fEE1`. -/
def xgrFeeSplitAddr : Nat := 0xfEE1

/-- The synthetic `XGRFeeSplit(uint256,uint256,uint256)` log built by
`Transition.Write`; `topicHash` stands for the keccak of the event signature
(keccak is not interpreted by this model). -/
def xgrFeeSplitLog (topicHash donation validator burned : Nat) : RLog :=
  ⟨xgrFeeSplitAddr, [topicHash], be32 donation ++ be32 validator ++ be32 burned⟩

/-- Receipt fields assembled by `Transition.Write`. -/
structure Receipt where
  cumulativeGasUsed : Nat
  txType : TxType
  gasUsed : Nat
  success : Bool
  contractAddress : Option Nat
  logs : List RLog
  deriving DecidableEq

/-- Port of the receipt-assembly tail of `Transition.Write`, given the values
`Write` has in scope after `Apply` succeeded: the transaction type, the
execution result, the Txn log buffer, the accumulated block gas and the fee
split of this transaction.  The synthetic fee-split log is appended after the
transaction's own logs, for every transaction type. -/
def transitionWriteReceipt (topicHash : Nat) (txType : TxType) (failed : Bool)
    (isCreation : Bool) (createdAddr : Nat) (stateLogs : List RLog)
    (totalGasBefore gasUsed donation validator burned : Nat) : Receipt :=
  let totalGas := totalGasBefore + gasUsed
  let logs := stateLogs ++ [xgrFeeSplitLog topicHash donation validator burned]
  { cumulativeGasUsed := totalGas
    txType := txType
    gasUsed := gasUsed
    success := !failed
    contractAddress := if isCreation then some createdAddr else none
    logs := logs }

/-! ## Block processing (src/unnamed/part_009, `Executor.ProcessBlock`) -/

/-- Port of the transaction loop of `ProcessBlock`: a transaction whose gas
exceeds the header gas limit is skipped (`continue`); otherwise it is written,
and a write error aborts the block. -/
def processTxs {St Tx E : Type} (gasOf : Tx → Nat) (write : St → Tx → Except E St)
    (gasLimit : Nat) (st : St) : List Tx → Except E St
  | [] => .ok st
  | tx :: rest =>
    if gasLimit < gasOf tx then processTxs gasOf write gasLimit st rest
    else
      match write st tx with
      | .error e => .error e
      | .ok st2 => processTxs gasOf write gasLimit st2 rest

/-- Sequential application of `write` with no skipping. -/
def applyAllTxs {St Tx E : Type} (write : St → Tx → Except E St)
    (st : St) : List Tx → Except E St
  | [] => .ok st
  | tx :: rest =>
    match write st tx with
    | .error e => .error e
    | .ok st2 => applyAllTxs write st2 rest

/-! ## Helper lemmas -/

/-- Helper: a list extended on the right truncates back to itself. -/
theorem take_append_len {α : Type} (l r : List α) : (l ++ r).take l.length = l :=
  List.take_left l r

/-- Helper: `engTransfer` changes only balances. -/
theorem engTransfer_preserve {st st' : EngineState} {src dst amt : Nat}
    (h : engTransfer st src dst amt = .ok st') :
    st'.knext = st.knext ∧ st'.logs = st.logs := by
  unfold engTransfer at h
  split at h
  · cases h
  · cases h
    exact ⟨rfl, rfl⟩

/-- Helper: `engineBillGrants` changes only balances. -/
theorem engineBillGrants_preserve {st st' : EngineState} {payer engine seconds perYear fee : Nat}
    (h : engineBillGrants st payer engine seconds perYear = .ok (fee, st')) :
    st'.knext = st.knext ∧ st'.logs = st.logs := by
  unfold engineBillGrants at h
  dsimp only at h
  split at h
  · cases h
    exact ⟨rfl, rfl⟩
  · split at h
    · cases h
      exact ⟨rfl, rfl⟩
    · split at h
      · cases h
      · rename_i heq
        cases h
        exact engTransfer_preserve heq

/-- Helper: the billing phase never touches `kNext`. -/
theorem engineBillPhase_knext {ctx : ECtx} {inp : ExecInput} {st st' : EngineState}
    (h : engineBillPhase ctx inp st = .ok st') : st'.knext = st.knext := by
  unfold engineBillPhase at h
  split at h
  · split at h
    · cases h
    · rename_i heq
      cases h
      exact (engineBillGrants_preserve heq).1
  · cases h
    rfl

/-- Helper: the refund/log phase never touches `kNext`. -/
theorem enginePostCall_knext {ctx : ECtx} {inp : ExecInput} {st st' : EngineState}
    {g : Nat} {s : Bool} {out : RunOut}
    (h : enginePostCall ctx inp st g s = .ok (st', out)) : st'.knext = st.knext := by
  unfold enginePostCall at h
  dsimp only at h
  split at h
  · cases h
  · rename_i st1 heq
    cases h
    have h2 : st1.knext = st.knext := by
      split at heq
      · exact (engTransfer_preserve heq).1
      · cases heq
        rfl
    exact h2

/-- Helper: the session phase rejects a jump above `curNext`. -/
theorem engineSessionPhase_gt {inp : ExecInput} {st : EngineState}
    (h : max 1 (st.knext inp.grantFrom) < inp.sessionId) :
    engineSessionPhase inp st = .error .invalidInput := by
  unfold engineSessionPhase
  simp only [if_pos h]

/-- Helper: full description of the session phase on success. -/
theorem engineSessionPhase_spec {inp : ExecInput} {st st' : EngineState}
    (h : engineSessionPhase inp st = .ok st') :
    st'.knext inp.grantFrom =
      (if inp.sessionId = max 1 (st.knext inp.grantFrom) then inp.sessionId + 1
       else st.knext inp.grantFrom) ∧
    st'.bal = st.bal ∧ st'.logs = st.logs := by
  unfold engineSessionPhase at h
  dsimp only at h
  split at h
  · cases h
  · split at h
    · rename_i hne heq
      cases h
      simp [heq]
    · rename_i hne hne2
      cases h
      simp [hne2]

/-- Helper: destructing a successful `engineExecuteRun`. -/
theorem engineExecuteRun_ok {inner : EngineState → EngineState × Nat × Bool}
    {ctx : ECtx} {inp : ExecInput} {st st' : EngineState} {out : RunOut}
    (h : engineExecuteRun inner ctx inp st = .ok (st', out)) :
    ∃ st1, enginePreCall ctx inp st = .ok st1 ∧
      enginePostCall ctx inp
        (if 0 < inp.gasLimit ∧ inp.callTo ≠ 0 then inner st1 else (st1, 0, false)).1
        (if 0 < inp.gasLimit ∧ inp.callTo ≠ 0 then inner st1 else (st1, 0, false)).2.1
        (if 0 < inp.gasLimit ∧ inp.callTo ≠ 0 then inner st1 else (st1, 0, false)).2.2
        = .ok (st', out) := by
  unfold engineExecuteRun at h
  split at h
  · cases h
  · rename_i st1 hpre
    exact ⟨st1, hpre, h⟩

/-- Helper: a successful pre-call phase pins down `kNext` and implies the
session guard passed. -/
theorem enginePreCall_knext {ctx : ECtx} {inp : ExecInput} {st st1 : EngineState}
    (h : enginePreCall ctx inp st = .ok st1) :
    st1.knext inp.grantFrom =
      (if inp.sessionId = max 1 (st.knext inp.grantFrom) then inp.sessionId + 1
       else st.knext inp.grantFrom) ∧
    ¬ (max 1 (st.knext inp.grantFrom) < inp.sessionId) := by
  unfold enginePreCall at h
  split at h
  · cases h
  · split at h
    · cases h
    · rename_i stb hbill
      split at h
      · cases h
      · rename_i st2 hsess
        split at h
        · cases h
        · split at h
          · cases h
          · cases h
            have hb := engineBillPhase_knext hbill
            have hs := engineSessionPhase_spec hsess
            have hgt : ¬ (max 1 (stb.knext inp.grantFrom) < inp.sessionId) := by
              unfold engineSessionPhase at hsess
              dsimp only at hsess
              split at hsess
              · cases hsess
              · rename_i hlt
                exact hlt
            rw [hb] at hs hgt
            exact ⟨hs.1, hgt⟩

/-- Helper: under a session-id jump, a completed billing phase forces the
`InvalidInput` rejection. -/
theorem enginePreCall_gt_reject {ctx : ECtx} {inp : ExecInput} {st stb : EngineState}
    (hgt : max 1 (st.knext inp.grantFrom) < inp.sessionId)
    (hbill : engineBillPhase ctx inp st = .ok stb) :
    enginePreCall ctx inp st = .error .invalidInput := by
  unfold enginePreCall
  split
  · rfl
  · have h2 : max 1 (stb.knext inp.grantFrom) < inp.sessionId := by
      rw [engineBillPhase_knext hbill]
      exact hgt
    rw [hbill]
    dsimp only
    rw [engineSessionPhase_gt h2]

/-- C1: for every `ENGINE_EXECUTE` invocation, with `curNext = max(1, kNext)`:
a session id strictly above `curNext` is rejected (with `InvalidInput` once
the billing step has passed) and the invocation never succeeds; a session id
equal to `curNext` persists `kNext ← sessionId + 1` already in the state the
inner CALL runs on; a smaller session id is a follow-up leaving `kNext`
unchanged; and on every successful invocation `kNext` is exactly the stated
value and is monotonically non-decreasing.  The `hinner` hypothesis reflects
that the inner CALL executes code of the target contract and cannot write the
precompile's own `kNext` storage. -/
theorem engine_session_monotonicity
    (ctx : ECtx) (inp : ExecInput) (st : EngineState)
    (inner : EngineState → EngineState × Nat × Bool)
    (hinner : ∀ s, (inner s).1.knext = s.knext) :
    (max 1 (st.knext inp.grantFrom) < inp.sessionId →
      (∀ r, engineExecuteRun inner ctx inp st ≠ .ok r) ∧
      (∀ stb, engineBillPhase ctx inp st = .ok stb →
        engineExecuteRun inner ctx inp st = .error .invalidInput)) ∧
    (inp.sessionId = max 1 (st.knext inp.grantFrom) →
      ∀ st1, enginePreCall ctx inp st = .ok st1 →
        st1.knext inp.grantFrom = inp.sessionId + 1) ∧
    (∀ st' out, engineExecuteRun inner ctx inp st = .ok (st', out) →
      st'.knext inp.grantFrom =
        (if inp.sessionId = max 1 (st.knext inp.grantFrom) then inp.sessionId + 1
         else st.knext inp.grantFrom) ∧
      st.knext inp.grantFrom ≤ st'.knext inp.grantFrom) := by
  refine ⟨?_, ?_, ?_⟩
  · intro hgt
    constructor
    · rintro ⟨st', out⟩ hok
      obtain ⟨st1, hpre, _⟩ := engineExecuteRun_ok hok
      exact (enginePreCall_knext hpre).2 hgt
    · intro stb hbill
      have hpre := enginePreCall_gt_reject hgt hbill
      unfold engineExecuteRun
      rw [hpre]
  · intro heq st1 hpre
    have h := (enginePreCall_knext hpre).1
    rw [if_pos heq] at h
    exact h
  · intro st' out hok
    obtain ⟨st1, hpre, hpost⟩ := engineExecuteRun_ok hok
    have hmid : (if 0 < inp.gasLimit ∧ inp.callTo ≠ 0 then inner st1
        else (st1, 0, false)).1.knext = st1.knext := by
      split
      · exact hinner st1
      · rfl
    have hval := (enginePreCall_knext hpre).1
    have hfinal := enginePostCall_knext hpost
    rw [hmid] at hfinal
    have hfun : st'.knext inp.grantFrom = st1.knext inp.grantFrom := congrFun hfinal _
    rw [hval] at hfun
    refine ⟨hfun, ?_⟩
    rw [hfun]
    split
    · rename_i hc
      have := Nat.le_max_right 1 (st.knext inp.grantFrom)
      omega
    · exact Nat.le_refl _

/-- Concrete context for the C1 witness: authorized caller, paid gas price 1,
no base fee. -/
def ctxW1 : ECtx := ⟨1, none, 0, 7, true, 9⟩

/-- Concrete decoded input for the C1 witness: user 1, session id 1, log-only
step (no target, no gas limit), no grant billing. -/
def inpW1 : ExecInput := ⟨1, 1, 0, 0, 0, 0, 0, 0, 0, 0, 0, 0, 0, 1, 0, 0, 0, []⟩

/-- Concrete engine state for the C1 witness: fresh `kNext`, ample balances. -/
def stW1 : EngineState := ⟨fun _ => 0, fun _ => 1000000000, []⟩

/-- Trivial inner CALL used by witnesses: no state change, no gas, failure. -/
def innerW1 : EngineState → EngineState × Nat × Bool := fun s => (s, 0, false)

/-- Witness for C1 at a concrete new-root invocation. -/
theorem engine_session_monotonicity_witness :
    (∀ s, (innerW1 s).1.knext = s.knext) ∧
    ((max 1 (stW1.knext inpW1.grantFrom) < inpW1.sessionId →
      (∀ r, engineExecuteRun innerW1 ctxW1 inpW1 stW1 ≠ .ok r) ∧
      (∀ stb, engineBillPhase ctxW1 inpW1 stW1 = .ok stb →
        engineExecuteRun innerW1 ctxW1 inpW1 stW1 = .error .invalidInput)) ∧
    (inpW1.sessionId = max 1 (stW1.knext inpW1.grantFrom) →
      ∀ st1, enginePreCall ctxW1 inpW1 stW1 = .ok st1 →
        st1.knext inpW1.grantFrom = inpW1.sessionId + 1) ∧
    (∀ st' out, engineExecuteRun innerW1 ctxW1 inpW1 stW1 = .ok (st', out) →
      st'.knext inpW1.grantFrom =
        (if inpW1.sessionId = max 1 (stW1.knext inpW1.grantFrom) then inpW1.sessionId + 1
         else stW1.knext inpW1.grantFrom) ∧
      stW1.knext inpW1.grantFrom ≤ st'.knext inpW1.grantFrom)) :=
  ⟨fun _ => rfl, engine_session_monotonicity ctxW1 inpW1 stW1 innerW1 (fun _ => rfl)⟩

/-- Claim-side precompile gas formula, transcribed from the specification
sentence: `validation_gas + log_units_total + call_overhead_units +
exec_limit` with `log_units(topics, data_len) = 375 + 375·topics +
8·data_len`, `call_overhead_units = 0` if `to = 0` or `gas_limit = 0` and
otherwise `700 + 2600 + 3·ceil(data_len/32)`, and `exec_limit = gas_limit`
when a target exists, else 0 (all in `uint64`). -/
def claimPrecompileGas (inp : ExecInput) : Nat :=
  let metaLen := calcEngineMetaLen inp.ostcIdLen inp.stepIdLen inp.payloadLen
    inp.apiSavesLen inp.contractSavesLen
  let extrasLen := calcEngineExtrasLen inp.extrasLen
  let logUnitsTotal := (375 + 375 * 1 + 8 * metaLen) + (375 + 375 * 1 + 8 * extrasLen)
  let callOverhead := if inp.callTo = 0 ∨ inp.gasLimit = 0 then 0
    else 700 + 2600 + 3 * ((inp.callDataLen + 31) / 32)
  let execLimit := if inp.callTo ≠ 0 then inp.gasLimit else 0
  w64 (inp.validationGas + logUnitsTotal + callOverhead + execLimit)

/-- C4: for every `ENGINE_EXECUTE` input that decodes successfully, the
precompile's `gas` returns exactly the claimed `precompile_gas_units`
formula; when the selector matches but decoding fails it returns the 21000
floor. -/
theorem engine_gas_formula (inputLen : Nat) (h4 : 4 ≤ inputLen) (inp : ExecInput) :
    engineExecuteGas inputLen true (some inp) = claimPrecompileGas inp ∧
    engineExecuteGas inputLen true none = 21000 := by
  constructor
  · unfold engineExecuteGas
    rw [if_neg (by omega)]
    have hexec : (if inp.callTo ≠ 0 ∧ 0 < inp.gasLimit then inp.gasLimit else 0) =
        (if inp.callTo ≠ 0 then inp.gasLimit else 0) := by
      by_cases hto : inp.callTo = 0
      · simp [hto]
      · by_cases hgl : 0 < inp.gasLimit
        · simp [hto, hgl]
        · simp [hto, hgl]
          omega
    unfold claimPrecompileGas FeeCalc.precompileGasUnits calcFee FeeCalc.logUnits
      logCostUnits callOverheadUnits
    dsimp only
    rw [hexec]
    rfl
  · unfold engineExecuteGas
    rw [if_neg (by omega)]
    rfl

/-- Witness for C4 at a concrete decoded input (all dynamic fields empty,
no target): the precompile gas is the two event log costs, 6876 units. -/
theorem engine_gas_formula_witness :
    4 ≤ 4 ∧
    (engineExecuteGas 4 true (some inpW1) = claimPrecompileGas inpW1 ∧
      engineExecuteGas 4 true none = 21000) ∧
    engineExecuteGas 4 true (some inpW1) = 6876 :=
  ⟨by omega, engine_gas_formula 4 (by omega) inpW1, by rfl⟩


/-- Helper: the resolved donation percent is at most 100. -/
theorem feeSplitConfig_pct_le (reg : RegistryView) : (feeSplitConfig reg).2 ≤ 100 := by
  unfold feeSplitConfig
  split
  · split
    · simp
    · split
      · rename_i hcond
        exact hcond.2
      · simp [defaultDonationPercent]
  · simp [defaultDonationPercent]

/-- Helper: registry absence resolves to the chain defaults. -/
theorem feeSplitConfig_absent (reg : RegistryView) (h : reg.present = false) :
    feeSplitConfig reg = (0x666, 15) := by
  unfold feeSplitConfig
  rw [h]
  simp [defaultDonationAddress, defaultBurnedAddress, defaultDonationPercent]

/-- Helper: field-level description of `computeFeeSplit`. -/
theorem computeFeeSplit_fields (g p : Nat) (reg : RegistryView) :
    (computeFeeSplit g p reg).burned = min burnFixedWei (g * p) ∧
    (computeFeeSplit g p reg).totalFee = g * p - min burnFixedWei (g * p) ∧
    (computeFeeSplit g p reg).donationPercent = (feeSplitConfig reg).2 ∧
    (computeFeeSplit g p reg).donationAddr = (feeSplitConfig reg).1 ∧
    (computeFeeSplit g p reg).burnedAddr = 0x666 ∧
    (computeFeeSplit g p reg).donation =
      (computeFeeSplit g p reg).totalFee * (computeFeeSplit g p reg).donationPercent / 100 ∧
    (computeFeeSplit g p reg).validator =
      (computeFeeSplit g p reg).totalFee - (computeFeeSplit g p reg).donation := by
  have hdon : ∀ tf pct : Nat, pct ≤ 100 →
      (if tf < tf * pct / 100 then tf else tf * pct / 100) = tf * pct / 100 := by
    intro tf pct hpct
    have hle : tf * pct / 100 ≤ tf := by
      calc tf * pct / 100 ≤ tf * 100 / 100 :=
            Nat.div_le_div_right (Nat.mul_le_mul_left tf hpct)
        _ = tf := Nat.mul_div_cancel tf (by omega)
    exact if_neg (Nat.not_lt.2 hle)
  simp only [computeFeeSplit]
  by_cases hb : g * p ≤ burnFixedWei
  · rw [if_pos hb, Nat.min_eq_right hb]
    refine ⟨?_, ?_, ?_, ?_, ?_, ?_, ?_⟩ <;>
      first
      | trivial
      | omega
      | exact hdon 0 (feeSplitConfig reg).2 (feeSplitConfig_pct_le reg)
  · rw [if_neg hb, Nat.min_eq_left (by omega)]
    refine ⟨?_, ?_, ?_, ?_, ?_, ?_, ?_⟩ <;>
      first
      | trivial
      | omega
      | exact hdon (g * p - burnFixedWei) (feeSplitConfig reg).2 (feeSplitConfig_pct_le reg)

/-- Helper: crediting the three fee shares at pairwise distinct addresses. -/
theorem creditFees_spec (bal : Nat → Nat) (coinbase : Nat) (r : FeeSplitResult)
    (h1 : r.donationAddr ≠ coinbase) (h2 : r.burnedAddr ≠ coinbase)
    (h3 : r.donationAddr ≠ r.burnedAddr) :
    creditFees bal coinbase r r.donationAddr = bal r.donationAddr + r.donation ∧
    creditFees bal coinbase r coinbase = bal coinbase + r.validator ∧
    creditFees bal coinbase r r.burnedAddr = bal r.burnedAddr + r.burned := by
  simp only [creditFees]
  refine ⟨?_, ?_, ?_⟩ <;> split_ifs <;>
    simp_all [setAt, Ne.symm h1, Ne.symm h2, Ne.symm h3]

/-- C2: the fee split of `Transition.apply` — the burn is the fixed 1000 Gwei
clamped to the raw fee `gas_used · gas_price` (with zero donation and
validator shares below the clamp), the donation is the floor percentage of
the remainder and the validator share the rest, the three shares are credited
to the donation address, the coinbase and the burned address, and registry
absence yields the defaults (donation percent 15, donation and burned
addresses both `0x…0666`). -/
theorem fee_split_spec (gasUsed gasPrice : Nat) (reg : RegistryView)
    (bal : Nat → Nat) (coinbase : Nat) (r : FeeSplitResult)
    (hr : r = computeFeeSplit gasUsed gasPrice reg) :
    r.burned = min burnFixedWei (gasUsed * gasPrice) ∧
    (gasUsed * gasPrice < burnFixedWei →
      r.burned = gasUsed * gasPrice ∧ r.donation = 0 ∧ r.validator = 0) ∧
    r.totalFee = gasUsed * gasPrice - r.burned ∧
    r.donation = r.totalFee * r.donationPercent / 100 ∧
    r.validator = r.totalFee - r.donation ∧
    (reg.present = false →
      r.donationAddr = 0x666 ∧ r.burnedAddr = 0x666 ∧ r.donationPercent = 15) ∧
    (r.donationAddr ≠ coinbase → r.burnedAddr ≠ coinbase → r.donationAddr ≠ r.burnedAddr →
      creditFees bal coinbase r r.donationAddr = bal r.donationAddr + r.donation ∧
      creditFees bal coinbase r coinbase = bal coinbase + r.validator ∧
      creditFees bal coinbase r r.burnedAddr = bal r.burnedAddr + r.burned) := by
  subst hr
  obtain ⟨hb, hf, hpct, haddr, hba, hdon, hval⟩ := computeFeeSplit_fields gasUsed gasPrice reg
  refine ⟨hb, ?_, ?_, hdon, hval, ?_, ?_⟩
  · intro hlt
    have h0 : min burnFixedWei (gasUsed * gasPrice) = gasUsed * gasPrice :=
      Nat.min_eq_right (Nat.le_of_lt hlt)
    have htf : (computeFeeSplit gasUsed gasPrice reg).totalFee = 0 := by
      rw [hf, h0]
      omega
    refine ⟨by rw [hb, h0], ?_, ?_⟩
    · rw [hdon, htf]
      simp
    · rw [hval, htf]
      omega
  · rw [hf, hb]
  · intro hp
    rw [haddr, hpct, feeSplitConfig_absent reg hp]
    exact ⟨rfl, hba, rfl⟩
  · exact fun h1 h2 h3 => creditFees_spec bal coinbase _ h1 h2 h3

/-- Concrete registry view for the C2 witness: present, donation address 3,
donation percent 20. -/
def regW2 : RegistryView := ⟨true, 3, 20⟩

/-- Witness for C2 at the scenario of spec S1 (21000 gas at 2 Gwei, so a raw
fee of 42·10¹² wei) with a present registry (address 3, percent 20) and
coinbase 4, including concrete share values. -/
theorem fee_split_spec_witness :
    (computeFeeSplit 21000 2000000000 regW2 = computeFeeSplit 21000 2000000000 regW2) ∧
    (let r := computeFeeSplit 21000 2000000000 regW2
     r.burned = min burnFixedWei (21000 * 2000000000) ∧
     (21000 * 2000000000 < burnFixedWei →
       r.burned = 21000 * 2000000000 ∧ r.donation = 0 ∧ r.validator = 0) ∧
     r.totalFee = 21000 * 2000000000 - r.burned ∧
     r.donation = r.totalFee * r.donationPercent / 100 ∧
     r.validator = r.totalFee - r.donation ∧
     (regW2.present = false →
       r.donationAddr = 0x666 ∧ r.burnedAddr = 0x666 ∧ r.donationPercent = 15) ∧
     (r.donationAddr ≠ 4 → r.burnedAddr ≠ 4 → r.donationAddr ≠ r.burnedAddr →
       creditFees (fun _ => 0) 4 r r.donationAddr = (fun _ => 0 : Nat → Nat) r.donationAddr + r.donation ∧
       creditFees (fun _ => 0) 4 r 4 = (fun _ => 0 : Nat → Nat) 4 + r.validator ∧
       creditFees (fun _ => 0) 4 r r.burnedAddr = (fun _ => 0 : Nat → Nat) r.burnedAddr + r.burned)) ∧
    (computeFeeSplit 21000 2000000000 regW2).burned = 1000000000000 ∧
    (computeFeeSplit 21000 2000000000 regW2).donation = 8200000000000 ∧
    (computeFeeSplit 21000 2000000000 regW2).validator = 32800000000000 :=
  ⟨rfl,
   fee_split_spec 21000 2000000000 regW2 (fun _ => 0) 4
     (computeFeeSplit 21000 2000000000 regW2) rfl,
   by decide, by decide, by decide⟩

/-- Boolean success test for engine-precompile results. -/
def engOk (r : Except EngErr EngineState) : Bool :=
  match r with
  | .ok _ => true
  | .error _ => false

/-- Concrete context for the C3 counterexample. -/
def ctxC3 : ECtx := ⟨1, none, 0, 7, true, 9⟩

/-- Concrete decoded input for the C3 counterexample: a log-only step whose
`validationGas` is `2^64 - 27876`, so that the `uint64` sum
`evm_tx_units + validation_gas` wraps to 0 in `totalTxUnits`. -/
def inpC3 : ExecInput := ⟨1, 1, 0, 0, 0, 0, 0, 0, 0, 0, 0, 0, 2 ^ 64 - 27876, 1, 0, 0, 0, []⟩

/-- Concrete engine state for the C3 counterexample: user 1 has balance 0. -/
def stC3 : EngineState := ⟨fun _ => 0, fun _ => 0, []⟩

/-- C3 counterexample: because the Go `uint64` sum of fee units wraps, the
balance preflight of `engineExecute.run` passes with a user balance of 0
(the wrapped `totalTxUnits` is 0, so `worst = 0`), and the later refund
transfer of `evm_refund + engine_fee = 2^64` wei then fails with the
insufficient-balance error — the error branch the claim calls unreachable. -/
theorem engine_refund_transfer_cex :
    engOk (enginePreCall ctxC3 inpC3 stC3) = true ∧
    engineExecuteRun innerW1 ctxC3 inpC3 stC3 = .error .insufficientBalance ∧
    (calcFee inpC3).totalTxUnits = 0 ∧
    (calcFee inpC3).evmTxUnits * ctxC3.gasPrice + inpC3.validationGas * ctxC3.gasPrice =
      2 ^ 64 := by
  refine ⟨by rfl, by rfl, by rfl, by decide⟩

/-- Helper: a successful pre-call phase implies the preflight bound holds for
the state entering the inner CALL. -/
theorem enginePreCall_preflight {ctx : ECtx} {inp : ExecInput} {st st1 : EngineState}
    (h : enginePreCall ctx inp st = .ok st1) :
    engineWorstTotal inp ctx.gasPrice ≤ st1.bal inp.grantFrom := by
  unfold enginePreCall at h
  split at h
  · cases h
  · split at h
    · cases h
    · split at h
      · cases h
      · split at h
        · cases h
        · split at h
          · cases h
          · rename_i hflight
            cases h
            unfold enginePreflight at hflight
            split at hflight
            · cases hflight
            · rename_i hnl
              exact Nat.le_of_not_lt hnl

/-- Helper: the refund phase succeeds whenever the paying balance covers the
total refund. -/
theorem enginePostCall_ok_of_bal {ctx : ECtx} {inp : ExecInput} {st : EngineState}
    {g : Nat} {s : Bool}
    (h : (calcFee inp).evmTxUnits * ctx.gasPrice + inp.validationGas * ctx.gasPrice ≤
      st.bal inp.grantFrom) :
    ∃ r, enginePostCall ctx inp st g s = .ok r := by
  unfold enginePostCall
  dsimp only
  by_cases hp : 0 < (calcFee inp).evmTxUnits * ctx.gasPrice + inp.validationGas * ctx.gasPrice
  · rw [if_pos hp]
    unfold engTransfer
    rw [if_neg (Nat.not_lt.2 h)]
    exact ⟨_, rfl⟩
  · rw [if_neg hp]
    exact ⟨_, rfl⟩

/-- C3 (amended): with `evm_tx_units + validation_gas` below `2^64` (no
`uint64` wrap in the unit sum), the preflight bound
`worst = total_units · paid + value + grant_fee` is enforced before the inner
CALL — reaching the preflight with a balance below `worst` fails with
`NotEnoughFunds`, every state entering the inner CALL satisfies the bound —
and the refund transfer after the inner CALL cannot fail, given that the
inner CALL (which only moves `value` from the user on success and is fully
reverted on failure) lowers the user's balance by at most `value`. -/
theorem engine_refund_transfer_safe
    (ctx : ECtx) (inp : ExecInput) (st : EngineState)
    (inner : EngineState → EngineState × Nat × Bool)
    (hnoof : (calcFee inp).evmTxUnitsRaw + inp.validationGas < 2 ^ 64)
    (hinner : ∀ s, s.bal inp.grantFrom ≤ (inner s).1.bal inp.grantFrom + inp.valueWei) :
    (∀ st1 st2, ctx.callerAuthorized = true →
      engineBillPhase ctx inp st = .ok st1 →
      engineSessionPhase inp st1 = .ok st2 →
      engineGuardPhase ctx inp = .ok () →
      st2.bal inp.grantFrom < engineWorstTotal inp ctx.gasPrice →
      engineExecuteRun inner ctx inp st = .error .notEnoughFunds) ∧
    (∀ st1, enginePreCall ctx inp st = .ok st1 →
      engineWorstTotal inp ctx.gasPrice ≤ st1.bal inp.grantFrom) ∧
    (∀ st1, enginePreCall ctx inp st = .ok st1 →
      ∃ r, engineExecuteRun inner ctx inp st = .ok r) := by
  have hraw : (calcFee inp).evmTxUnits = (calcFee inp).evmTxUnitsRaw := by
    unfold FeeCalc.evmTxUnits w64
    exact Nat.mod_eq_of_lt (by omega)
  have htot : (calcFee inp).totalTxUnits =
      (calcFee inp).evmTxUnitsRaw + inp.validationGas := by
    unfold FeeCalc.totalTxUnits w64
    exact Nat.mod_eq_of_lt hnoof
  have hworst : (calcFee inp).totalTxUnits * ctx.gasPrice + inp.valueWei ≤
      engineWorstTotal inp ctx.gasPrice := by
    unfold engineWorstTotal
    dsimp only
    split <;> omega
  refine ⟨?_, fun st1 h => enginePreCall_preflight h, ?_⟩
  · intro st1 st2 hauth hbill hsess hguard hlt
    have hpre : enginePreCall ctx inp st = .error .notEnoughFunds := by
      unfold enginePreCall
      rw [hauth]
      rw [if_neg (by simp)]
      rw [hbill]
      dsimp only
      rw [hsess]
      dsimp only
      rw [hguard]
      dsimp only
      unfold enginePreflight
      rw [if_pos hlt]
    unfold engineExecuteRun
    rw [hpre]
  · intro st1 hpre
    have h1 := enginePreCall_preflight hpre
    unfold engineExecuteRun
    rw [hpre]
    dsimp only
    apply enginePostCall_ok_of_bal
    have h2 : (calcFee inp).totalTxUnits * ctx.gasPrice =
        (calcFee inp).evmTxUnits * ctx.gasPrice + inp.validationGas * ctx.gasPrice := by
      rw [hraw, htot, Nat.add_mul]
    have hstep : st1.bal inp.grantFrom ≤
        (if 0 < inp.gasLimit ∧ inp.callTo ≠ 0 then inner st1
         else (st1, 0, false)).1.bal inp.grantFrom + inp.valueWei := by
      split
      · exact hinner st1
      · exact Nat.le_add_right _ _
    omega

/-- Concrete decoded input for the C3 witness: like `inpW1` but with a
modest validation gas of 20000. -/
def inpW3 : ExecInput := ⟨1, 1, 0, 0, 0, 0, 0, 0, 0, 0, 0, 0, 20000, 1, 0, 0, 0, []⟩

/-- Witness for C3 (amended) at a concrete non-overflowing invocation. -/
theorem engine_refund_transfer_safe_witness :
    ((calcFee inpW3).evmTxUnitsRaw + inpW3.validationGas < 2 ^ 64) ∧
    (∀ s, s.bal inpW3.grantFrom ≤ (innerW1 s).1.bal inpW3.grantFrom + inpW3.valueWei) ∧
    ((∀ st1 st2, ctxW1.callerAuthorized = true →
      engineBillPhase ctxW1 inpW3 stW1 = .ok st1 →
      engineSessionPhase inpW3 st1 = .ok st2 →
      engineGuardPhase ctxW1 inpW3 = .ok () →
      st2.bal inpW3.grantFrom < engineWorstTotal inpW3 ctxW1.gasPrice →
      engineExecuteRun innerW1 ctxW1 inpW3 stW1 = .error .notEnoughFunds) ∧
    (∀ st1, enginePreCall ctxW1 inpW3 stW1 = .ok st1 →
      engineWorstTotal inpW3 ctxW1.gasPrice ≤ st1.bal inpW3.grantFrom) ∧
    (∀ st1, enginePreCall ctxW1 inpW3 stW1 = .ok st1 →
      ∃ r, engineExecuteRun innerW1 ctxW1 inpW3 stW1 = .ok r)) :=
  ⟨by decide, fun s => Nat.le_add_right _ _,
   engine_refund_transfer_safe ctxW1 inpW3 stW1 innerW1 (by decide)
     (fun s => Nat.le_add_right _ _)⟩

/-- Boolean success test for full engine-run results. -/
def engOkR (r : Except EngErr (EngineState × RunOut)) : Bool :=
  match r with
  | .ok _ => true
  | .error _ => false

/-- Log buffer of a full engine-run result. -/
def engRunLogs (r : Except EngErr (EngineState × RunOut)) : List ELog :=
  match r with
  | .ok p => p.1.logs
  | .error _ => []

/-- Concrete decoded input for the C7 counterexample: like `inpW1` but with
`grantFeeSeconds = 1` (grant billing requested, at rate 0). -/
def inpC7 : ExecInput := ⟨1, 1, 0, 0, 0, 0, 0, 0, 0, 0, 0, 0, 0, 1, 0, 1, 0, []⟩

/-- C7 counterexample: a successful `ENGINE_EXECUTE` invocation with
`grantFeeSeconds > 0` emits three logs from the precompile — the grant-fee
log of `logGrantFeeCharged` followed by `EngineMeta` and `EngineExtrasV2` —
not exactly two. -/
theorem engine_two_events_cex :
    engOkR (engineExecuteRun innerW1 ctxW1 inpC7 stW1) = true ∧
    engRunLogs (engineExecuteRun innerW1 ctxW1 inpC7 stW1) =
      [⟨7, .grantFeeCharged 1 9 1 0 0⟩, ⟨7, .engineMeta 1 false⟩, ⟨7, .engineExtras 0⟩] ∧
    (engRunLogs (engineExecuteRun innerW1 ctxW1 inpC7 stW1)).length = 3 :=
  ⟨rfl, rfl, rfl⟩

/-- Helper: with a positive duration, `billGrants` computes the ceiling fee
and touches only balances. -/
theorem engineBillGrants_fee {st st' : EngineState} {payer engine seconds perYear fee : Nat}
    (hs : seconds ≠ 0)
    (h : engineBillGrants st payer engine seconds perYear = .ok (fee, st')) :
    fee = (perYear * seconds + (31536000 - 1)) / 31536000 ∧ st'.logs = st.logs := by
  unfold engineBillGrants at h
  rw [if_neg hs] at h
  dsimp only at h
  split at h
  · cases h
    exact ⟨rfl, rfl⟩
  · split at h
    · cases h
    · rename_i heq
      cases h
      exact ⟨rfl, (engTransfer_preserve heq).2⟩

/-- Helper: logs appended by the billing phase. -/
theorem engineBillPhase_logs {ctx : ECtx} {inp : ExecInput} {st st' : EngineState}
    (h : engineBillPhase ctx inp st = .ok st') :
    st'.logs = st.logs ++
      (if 0 < inp.grantFeeSeconds then
        [⟨ctx.selfAddr, .grantFeeCharged inp.grantFrom ctx.engineAddr inp.grantFeeSeconds
            inp.grantFeePerYearWei
            ((inp.grantFeePerYearWei * inp.grantFeeSeconds + (31536000 - 1)) / 31536000)⟩]
       else []) := by
  unfold engineBillPhase at h
  split at h
  · rename_i hs
    rw [if_pos hs]
    split at h
    · cases h
    · rename_i fee st2 hbill
      cases h
      obtain ⟨hfee, hlogs⟩ := engineBillGrants_fee (by omega) hbill
      rw [hlogs, hfee]
  · rename_i hs
    rw [if_neg hs]
    cases h
    simp

/-- Helper: logs appended by the refund/log phase, and the reported success
flag. -/
theorem enginePostCall_logs {ctx : ECtx} {inp : ExecInput} {st st' : EngineState}
    {g : Nat} {s : Bool} {out : RunOut}
    (h : enginePostCall ctx inp st g s = .ok (st', out)) :
    st'.logs = st.logs ++
      [⟨ctx.selfAddr, .engineMeta inp.sessionId s⟩, ⟨ctx.selfAddr, .engineExtras g⟩] ∧
    out.success = s := by
  unfold enginePostCall at h
  dsimp only at h
  split at h
  · cases h
  · rename_i st1 heq
    cases h
    refine ⟨?_, rfl⟩
    have hl : st1.logs = st.logs := by
      split at heq
      · exact (engTransfer_preserve heq).2
      · cases heq
        rfl
    rw [hl]

/-- Helper: logs of the state entering the inner CALL. -/
theorem enginePreCall_logs {ctx : ECtx} {inp : ExecInput} {st st1 : EngineState}
    (h : enginePreCall ctx inp st = .ok st1) :
    st1.logs = st.logs ++
      (if 0 < inp.grantFeeSeconds then
        [⟨ctx.selfAddr, .grantFeeCharged inp.grantFrom ctx.engineAddr inp.grantFeeSeconds
            inp.grantFeePerYearWei
            ((inp.grantFeePerYearWei * inp.grantFeeSeconds + (31536000 - 1)) / 31536000)⟩]
       else []) := by
  unfold enginePreCall at h
  split at h
  · cases h
  · split at h
    · cases h
    · rename_i stb hbill
      split at h
      · cases h
      · rename_i st2 hsess
        split at h
        · cases h
        · split at h
          · cases h
          · cases h
            rw [(engineSessionPhase_spec hsess).2.2, engineBillPhase_logs hbill]

/-- C7 (amended): every `ENGINE_EXECUTE` invocation that returns successfully
emits, from the precompile address, exactly the `EngineMeta` log followed by
the `EngineExtrasV2` log — preceded by one grant-fee log exactly when
`grantFeeSeconds > 0` — regardless of the inner CALL's outcome; logs emitted
by the inner CALL itself are not counted (`hinner`). -/
theorem engine_event_emission
    (ctx : ECtx) (inp : ExecInput) (st st' : EngineState) (out : RunOut)
    (inner : EngineState → EngineState × Nat × Bool)
    (hinner : ∀ s, (inner s).1.logs = s.logs)
    (hok : engineExecuteRun inner ctx inp st = .ok (st', out)) :
    ∃ g, st'.logs = st.logs ++
      (if 0 < inp.grantFeeSeconds then
        [⟨ctx.selfAddr, .grantFeeCharged inp.grantFrom ctx.engineAddr inp.grantFeeSeconds
            inp.grantFeePerYearWei
            ((inp.grantFeePerYearWei * inp.grantFeeSeconds + (31536000 - 1)) / 31536000)⟩]
       else []) ++
      [⟨ctx.selfAddr, .engineMeta inp.sessionId out.success⟩,
       ⟨ctx.selfAddr, .engineExtras g⟩] := by
  obtain ⟨st1, hpre, hpost⟩ := engineExecuteRun_ok hok
  refine ⟨(if 0 < inp.gasLimit ∧ inp.callTo ≠ 0 then inner st1 else (st1, 0, false)).2.1, ?_⟩
  obtain ⟨hlogs, hsucc⟩ := enginePostCall_logs hpost
  have hmid : (if 0 < inp.gasLimit ∧ inp.callTo ≠ 0 then inner st1
      else (st1, 0, false)).1.logs = st1.logs := by
    split
    · exact hinner st1
    · rfl
  rw [hsucc, hlogs, hmid, enginePreCall_logs hpre, List.append_assoc]

/-- Witness for C7 (amended) at a concrete billing-free invocation. -/
theorem engine_event_emission_witness :
    (∀ s, (innerW1 s).1.logs = s.logs) ∧
    (∃ p, engineExecuteRun innerW1 ctxW1 inpW1 stW1 = .ok p ∧
      ∃ g, p.1.logs = stW1.logs ++
        (if 0 < inpW1.grantFeeSeconds then
          [⟨ctxW1.selfAddr, .grantFeeCharged inpW1.grantFrom ctxW1.engineAddr
              inpW1.grantFeeSeconds inpW1.grantFeePerYearWei
              ((inpW1.grantFeePerYearWei * inpW1.grantFeeSeconds + (31536000 - 1)) / 31536000)⟩]
         else []) ++
        [⟨ctxW1.selfAddr, .engineMeta inpW1.sessionId p.2.success⟩,
         ⟨ctxW1.selfAddr, .engineExtras g⟩]) := by
  refine ⟨fun s => rfl, ?_⟩
  have hex : ∃ p, engineExecuteRun innerW1 ctxW1 inpW1 stW1 = .ok p := ⟨_, rfl⟩
  obtain ⟨p, hp⟩ := hex
  exact ⟨p, hp, engine_event_emission ctxW1 inpW1 stW1 p.1 p.2 innerW1 (fun s => rfl)
    (by rw [hp])⟩

/-- Claim-side intrinsic-gas formula, transcribed from the claim: base 21000
(or 53000 for creation post-Homestead), 4 per zero payload byte, 68/16 per
non-zero byte pre/post-Istanbul, 2 per init-code word under EIP-3860, plus
2400 per access-list address and 1900 per storage key (in exact arithmetic,
no wrapping). -/
def claimIntrinsicGas (tx : GasTx) (isHomestead isIstanbul isEIP3860 isEIP2930 : Bool) : Nat :=
  (if tx.isCreation = true ∧ isHomestead = true then 53000 else 21000) +
  (tx.input.length - tx.input.count 0) * (if isIstanbul = true then 16 else 68) +
  tx.input.count 0 * 4 +
  (if tx.isCreation = true ∧ isEIP3860 = true then ((tx.input.length + 31) / 32) * 2 else 0) +
  (if isEIP2930 = true ∧ (tx.txType = TxType.accessListTx ∨ tx.txType = TxType.dynamicFee) then
    tx.accessTuples.length * 2400 + (tx.accessTuples.map (fun p => p.2.length)).sum * 1900
   else 0)

/-- Helper: `TransactionGasCost` on an empty-input, non-creation access-list
transaction under Homestead/Istanbul/EIP-3860/EIP-2930 reduces to the base
plus the wrapped surcharge. -/
theorem transactionGasCost_accessList (acc : List (Nat × List Nat)) :
    transactionGasCost ⟨false, [], TxType.accessListTx, acc⟩ true true true true =
      .ok (w64 (21000 + (acc.length * 2400 + (acc.map (fun p => p.2.length)).sum * 1900))) := by
  rfl

/-- Access-list transaction with `2^63` address entries, used to exhibit the
unchecked `uint64` wrap of the access-list surcharge. -/
def txC5 : GasTx := ⟨false, [], TxType.accessListTx, List.replicate (2 ^ 63) (0, [])⟩

/-- Helper: claimed intrinsic gas of an empty-input access-list transaction
with `n` address entries and no storage keys. -/
theorem claimIntrinsicGas_access (n : Nat) :
    claimIntrinsicGas ⟨false, [], TxType.accessListTx,
      List.replicate n ((0 : Nat), ([] : List Nat))⟩ true true true true =
    21000 + 2400 * n := by
  unfold claimIntrinsicGas
  dsimp only
  rw [List.length_replicate, List.map_replicate, List.sum_replicate]
  norm_num
  ring

/-- Helper: computed intrinsic gas of the same transaction shape (wrapped
surcharge). -/
theorem tgc_access_n (n : Nat) :
    transactionGasCost ⟨false, [], TxType.accessListTx,
      List.replicate n ((0 : Nat), ([] : List Nat))⟩ true true true true =
    .ok (w64 (21000 + n * 2400)) := by
  rw [transactionGasCost_accessList]
  exact congrArg Except.ok (by
    rw [List.length_replicate, List.map_replicate, List.sum_replicate]
    norm_num)

/-- C5 counterexample: the access-list surcharge is added with plain Go
`uint64` arithmetic and no overflow check, so for a transaction with `2^63`
access-list addresses (surcharge `2^63 · 2400`, a multiple of `2^64`) the
computation does not fail — it wraps and returns a plain 21000 — although
the claimed intrinsic gas exceeds `2^64`. -/
theorem intrinsic_gas_overflow_cex :
    transactionGasCost txC5 true true true true = .ok 21000 ∧
    claimIntrinsicGas txC5 true true true true = 21000 + 2400 * 2 ^ 63 ∧
    2 ^ 64 < claimIntrinsicGas txC5 true true true true := by
  have hc : claimIntrinsicGas txC5 true true true true = 21000 + 2400 * 2 ^ 63 :=
    claimIntrinsicGas_access (2 ^ 63)
  have ht : transactionGasCost txC5 true true true true = .ok (w64 (21000 + 2 ^ 63 * 2400)) :=
    tgc_access_n (2 ^ 63)
  refine ⟨ht.trans (congrArg Except.ok (by decide)), hc, by rw [hc]; norm_num⟩


/-- Helper: the payload component succeeds with its exact value whenever that
value fits `uint64`. -/
theorem tgcPayload_ok (cost0 : Nat) (payload : List Nat) (nzc : Nat) (h0 : 0 < nzc)
    (hle : cost0 + (payload.length - payload.count 0) * nzc + payload.count 0 * 4 ≤ maxU64) :
    tgcPayload cost0 payload nzc =
      .ok (cost0 + (payload.length - payload.count 0) * nzc + payload.count 0 * 4) := by
  have hz : payload.count 0 ≤ payload.length := List.count_le_length _ _
  unfold tgcPayload
  by_cases hlen : 0 < payload.length
  · rw [if_pos hlen]
    have hch1 : ¬ ((maxU64 - cost0) / nzc < payload.length - payload.count 0) := by
      rw [Nat.not_lt, Nat.le_div_iff_mul_le h0]
      omega
    rw [if_neg hch1]
    have hch2 : ¬ ((maxU64 - (cost0 + (payload.length - payload.count 0) * nzc)) / 4 <
        payload.count 0) := by
      unfold maxU64 at *
      omega
    rw [if_neg hch2]
  · rw [if_neg hlen]
    have hl0 : payload.length = 0 := by omega
    have hz0 : payload.count 0 = 0 := by omega
    exact congrArg Except.ok (by rw [hl0, hz0]; simp)

/-- Helper: the init-code component succeeds with its exact value whenever
that value fits `uint64`. -/
theorem tgcInitCode_ok (c2 : Nat) (cr e3 : Bool) (len : Nat)
    (hle : c2 + (if cr = true ∧ e3 = true then ((len + 31) / 32) * 2 else 0) ≤ maxU64) :
    tgcInitCode c2 cr e3 len =
      .ok (c2 + (if cr = true ∧ e3 = true then ((len + 31) / 32) * 2 else 0)) := by
  unfold tgcInitCode
  by_cases hc : cr = true ∧ e3 = true
  · simp only [if_pos hc] at hle ⊢
    have hch : ¬ ((maxU64 - c2) / 2 < (len + 31) / 32) := by
      unfold maxU64 at *
      omega
    rw [if_neg hch]
  · simp only [if_neg hc]
    simp

/-- C5 (amended): whenever the claimed intrinsic-gas total fits `uint64`,
`TransactionGasCost` returns exactly the claimed formula — base 21000/53000,
payload bytes, EIP-3860 init-code words, EIP-2930 access-list surcharge (the
guarded payload and init-code components fail on overflow, while the
access-list surcharge wraps, which below `2^64` makes no difference); the
`uint64` wrap-around test `gasLeft > msg.Gas` used by `Transition.apply` to
require that purchased gas covers the intrinsic gas is exactly the test
`intrinsic > msg.Gas`; and the S3 boundary instance (2 addresses, 3 storage
keys, empty input, no creation) costs 31500. -/
theorem intrinsic_gas_spec (tx : GasTx) (h i e3 e2 : Bool)
    (hle : claimIntrinsicGas tx h i e3 e2 ≤ maxU64) :
    transactionGasCost tx h i e3 e2 = .ok (claimIntrinsicGas tx h i e3 e2) ∧
    (∀ g ic : Nat, g < 2 ^ 64 → ic < 2 ^ 64 → (g < wsub64 g ic ↔ g < ic)) ∧
    transactionGasCost ⟨false, [], TxType.accessListTx, [(1, [10, 11]), (2, [12])]⟩
      true true true true = .ok 31500 := by
  refine ⟨?_, ?_, by rfl⟩
  · unfold claimIntrinsicGas at hle ⊢
    unfold transactionGasCost
    rw [tgcPayload_ok _ _ _ (by split <;> omega) (by omega)]
    dsimp only
    rw [tgcInitCode_ok _ _ _ _ (by omega)]
    dsimp only
    refine congrArg Except.ok ?_
    unfold tgcAccess
    by_cases h29 : e2 = true ∧ (tx.txType = TxType.accessListTx ∨ tx.txType = TxType.dynamicFee)
    · simp only [if_pos h29] at hle ⊢
      unfold w64 maxU64 at *
      exact Nat.mod_eq_of_lt (by omega)
    · simp only [if_neg h29]
      omega
  · intro g ic hg hic
    unfold wsub64
    omega

/-- The S3 boundary transaction: access-list type, 2 addresses, 3 storage
keys, empty input, not a creation. -/
def txS3 : GasTx := ⟨false, [], TxType.accessListTx, [(1, [10, 11]), (2, [12])]⟩

/-- Witness for C5 (amended) at the S3 transaction. -/
theorem intrinsic_gas_spec_witness :
    claimIntrinsicGas txS3 true true true true ≤ maxU64 ∧
    (transactionGasCost txS3 true true true true = .ok (claimIntrinsicGas txS3 true true true true) ∧
     (∀ g ic : Nat, g < 2 ^ 64 → ic < 2 ^ 64 → (g < wsub64 g ic ↔ g < ic)) ∧
     transactionGasCost ⟨false, [], TxType.accessListTx, [(1, [10, 11]), (2, [12])]⟩
       true true true true = .ok 31500) ∧
    claimIntrinsicGas txS3 true true true true = 31500 :=
  ⟨by decide, intrinsic_gas_spec txS3 true true true true (by decide), by decide⟩

/-- Helper: `txnTransfer` on success appends exactly the debit and credit. -/
theorem txnTransfer_ok {t t' : Txn} {a b v : Nat}
    (h : txnTransfer t a b v = .ok t') :
    t'.journal = t.journal ++ [.subBal a v, .addBal b v] ∧ t'.base = t.base := by
  unfold txnTransfer at h
  split at h
  · cases h
  · cases h
    refine ⟨?_, rfl⟩
    simp [Txn.push]

/-- Helper: `txnIncrNonce` on success appends exactly the nonce write. -/
theorem txnIncrNonce_ok {t t' : Txn} {a : Nat}
    (h : txnIncrNonce t a = .ok t') :
    t'.journal = t.journal ++ [.setNonce a ((t.world a).nonce + 1)] ∧ t'.base = t.base := by
  unfold txnIncrNonce at h
  split at h
  · cases h
  · cases h
    exact ⟨rfl, rfl⟩

/-- A journaled state extends another: same base, journal grown on the right
(the spec's LIFO snapshot discipline). -/
def TxnExt (t t2 : Txn) : Prop := t2.base = t.base ∧ ∃ L, t2.journal = t.journal ++ L

/-- Helper: extension is reflexive. -/
theorem txnExt_refl (t : Txn) : TxnExt t t := ⟨rfl, [], by simp⟩

/-- Helper: a push preserves extension. -/
theorem txnExt_push {t t2 : Txn} (h : TxnExt t t2) (m : Mut) : TxnExt t (t2.push m) := by
  obtain ⟨hb, L, hj⟩ := h
  exact ⟨hb, L ++ [m], by simp [Txn.push, hj]⟩

/-- Helper: a successful transfer preserves extension. -/
theorem txnExt_transfer {t t2 t3 : Txn} {a b v : Nat} (h : TxnExt t t2)
    (htr : txnTransfer t2 a b v = .ok t3) : TxnExt t t3 := by
  obtain ⟨h1, h2⟩ := txnTransfer_ok htr
  obtain ⟨hb, L, hj⟩ := h
  exact ⟨by rw [h2, hb], L ++ [.subBal a v, .addBal b v], by rw [h1, hj]; simp⟩

/-- Helper: a successful nonce increment preserves extension. -/
theorem txnExt_incr {t t2 t3 : Txn} {a : Nat} (h : TxnExt t t2)
    (hi : txnIncrNonce t2 a = .ok t3) : TxnExt t t3 := by
  obtain ⟨h1, h2⟩ := txnIncrNonce_ok hi
  obtain ⟨hb, L, hj⟩ := h
  exact ⟨by rw [h2, hb], L ++ [.setNonce a ((t2.world a).nonce + 1)], by rw [h1, hj]; simp⟩

/-- Helper: reverting an extension to the base's snapshot restores its world
(spec: revert = truncate the journal to the snapshot length). -/
theorem revert_world_of_txnExt {t t2 : Txn} (h : TxnExt t t2) :
    (t2.revertTo t.snapshotId).world = t.world := by
  obtain ⟨hb, L, hj⟩ := h
  unfold Txn.revertTo Txn.snapshotId Txn.world
  dsimp only
  rw [hj, hb, take_append_len]

/-- Helper: a child run satisfying the LIFO journal discipline preserves
extension. -/
theorem txnExt_run (run : Txn → AccessList → FrameOut)
    (hext : ∀ t al, ∃ e, (run t al).t.journal = t.journal ++ e)
    (hbase : ∀ t al, (run t al).t.base = t.base)
    {t t2 : Txn} (al : AccessList) (h : TxnExt t t2) : TxnExt t (run t2 al).t := by
  obtain ⟨e, he⟩ := hext t2 al
  obtain ⟨hb, L, hj⟩ := h
  exact ⟨by rw [hbase t2 al, hb], L ++ e, by rw [he, hj]; simp⟩

/-- Helper: reflexivity of access-list inclusion. -/
theorem accessList_le_refl (al : AccessList) : AccessList.le al al :=
  ⟨fun _ h => h, fun _ _ h => h⟩

/-- C6 (amended): frames revert their effects on failure only partially, and
only grow the access list.  For CALL frames any failure restores the world to
the state at the frame's entry snapshot and the access list to the clone
captured at entry.  For CREATE frames the snapshot is captured after the
caller-nonce increment and the collision check: a failing init-code run
restores the world to that post-increment snapshot (so the caller's nonce
bump survives) and the access list to the entry clone, while a failing value
transfer performs no revert at all — the frame returns the pre-transfer state
`t2` unchanged, so the EIP-158 create-account and nonce mutations recorded
after the snapshot survive the failure.  Both frame kinds never shrink
access-list membership, so membership after a successful frame is a superset
of membership at entry.  The `run` hypotheses are the LIFO journal discipline
of the spec and the inductive access-list growth of nested frames. -/
theorem frame_revert_and_access_list
    (run : Txn → AccessList → FrameOut)
    (hext : ∀ t al, ∃ e, (run t al).t.journal = t.journal ++ e)
    (hbase : ∀ t al, (run t al).t.base = t.base)
    (hal : ∀ t al, AccessList.le al (run t al).al)
    (c : XContract) (isCall : Bool) (t : Txn) (al : AccessList) (e3 e158 hom : Bool) :
    ((applyCall run true c isCall t al).res.failed = true →
      (applyCall run true c isCall t al).t.world = t.world ∧
      (applyCall run true c isCall t al).al = al) ∧
    AccessList.le al (applyCall run true c isCall t al).al ∧
    (∀ t1 t2 t3,
      ¬ 1024 + 1 < c.depth →
      txnIncrNonce t c.caller = .ok t1 →
      hasCodeOrNonce t1 c.address = false →
      ¬ (e3 = true ∧ 1 < c.depth ∧ 2 * 24576 < c.codeLen) →
      (if e158 = true then txnIncrNonce (t1.push (.create c.address)) c.address
       else .ok t1) = .ok t2 →
      txnTransfer t2 c.caller c.address c.value = .ok t3 →
      (run t3 al).res.failed = true →
      (applyCreate run true e3 e158 hom c t al).t.world = t1.world ∧
      (applyCreate run true e3 e158 hom c t al).al = al) ∧
    (∀ t1 t2,
      ¬ 1024 + 1 < c.depth →
      txnIncrNonce t c.caller = .ok t1 →
      hasCodeOrNonce t1 c.address = false →
      ¬ (e3 = true ∧ 1 < c.depth ∧ 2 * 24576 < c.codeLen) →
      (if e158 = true then txnIncrNonce (t1.push (.create c.address)) c.address
       else .ok t1) = .ok t2 →
      txnTransfer t2 c.caller c.address c.value = .error () →
      applyCreate run true e3 e158 hom c t al =
        ⟨t2, al, ⟨c.gas, 0, some .insufficientBalance⟩⟩) ∧
    AccessList.le al (applyCreate run true e3 e158 hom c t al).al := by
  refine ⟨?_, ?_, ?_, ?_, ?_⟩
  · simp only [applyCall]
    split
    · intro _
      exact ⟨rfl, rfl⟩
    · split
      · intro _
        exact ⟨revert_world_of_txnExt (txnExt_push (txnExt_refl t) _), rfl⟩
      · rename_i t2 htr
        split
        · rename_i hrf
          intro _
          constructor
          · apply revert_world_of_txnExt
            apply txnExt_run run hext hbase
            by_cases hc2 : isCall = true
            · rw [if_pos hc2] at htr
              exact txnExt_transfer (txnExt_push (txnExt_refl t) _) htr
            · rw [if_neg hc2] at htr
              cases htr
              exact txnExt_push (txnExt_refl t) _
          · rfl
        · rename_i hrf
          intro hfail
          exact absurd hfail hrf
  · simp only [applyCall]
    split
    · exact accessList_le_refl al
    · split
      · exact accessList_le_refl al
      · split
        · exact accessList_le_refl al
        · exact hal _ _
  · intro t1 t2 t3 hd hinc hcol h38 hstep htr hrf
    simp only [applyCreate]
    split
    · rename_i h
      exact absurd h hd
    · split
      · rename_i hx1
        rw [hinc] at hx1
        cases hx1
      · rename_i t1x hx1
        rw [hinc] at hx1
        injection hx1 with h1
        subst h1
        split
        · rename_i h
          rw [hcol] at h
          exact absurd h (by simp)
        · split
          · rename_i hx2
            rw [hstep] at hx2
            cases hx2
          · rename_i t2x hx2
            rw [hstep] at hx2
            injection hx2 with h2
            subst h2
            split
            · rename_i hx3
              rw [htr] at hx3
              cases hx3
            · rename_i t3x hx3
              rw [htr] at hx3
              injection hx3 with h3
              subst h3
              rw [if_pos hrf]
              refine ⟨?_, rfl⟩
              apply revert_world_of_txnExt
              apply txnExt_run run hext hbase
              have hx : TxnExt t1 t2 := by
                by_cases h158 : e158 = true
                · rw [if_pos h158] at hstep
                  exact txnExt_incr (txnExt_push (txnExt_refl t1) _) hstep
                · rw [if_neg h158] at hstep
                  cases hstep
                  exact txnExt_refl t1
              exact txnExt_transfer hx htr
  · intro t1 t2 hd hinc hcol h38 hstep htr
    simp only [applyCreate]
    split
    · rename_i h
      exact absurd h hd
    · split
      · rename_i hx1
        rw [hinc] at hx1
        cases hx1
      · rename_i t1x hx1
        rw [hinc] at hx1
        injection hx1 with h1
        subst h1
        split
        · rename_i h
          rw [hcol] at h
          exact absurd h (by simp)
        · split
          · rename_i hx2
            rw [hstep] at hx2
            cases hx2
          · rename_i t2x hx2
            rw [hstep] at hx2
            injection hx2 with h2
            subst h2
            split
            · rfl
            · rename_i t3x hx3
              rw [htr] at hx3
              cases hx3
  · simp only [applyCreate]
    repeat' first
      | exact accessList_le_refl al
      | exact hal _ _
      | split

/-- Child execution that fails unconditionally without touching state. -/
def runFail : Txn → AccessList → FrameOut :=
  fun t al => ⟨t, al, ⟨0, 0, some (.other 0)⟩⟩

/-- Child execution that succeeds unconditionally without touching state. -/
def runTriv : Txn → AccessList → FrameOut :=
  fun t al => ⟨t, al, ⟨0, 0, none⟩⟩

/-- Concrete CREATE scenario: caller 2 (nonce 0, funded), target address 5
already has a nonzero nonce, so creation collides after the caller nonce was
incremented. -/
def tC6 : Txn :=
  ⟨fun a => if a = 5 then ⟨1, 0, true, false⟩ else ⟨0, 100, false, false⟩, []⟩

def alC6 : AccessList := ⟨fun _ => false, fun _ _ => false⟩

def cC6 : XContract := ⟨1, 2, 5, 0, 100, 0⟩

theorem frame_revert_create_cex :
    (applyCreate runTriv true true true true cC6 tC6 alC6).res.failed = true ∧
    ((applyCreate runTriv true true true true cC6 tC6 alC6).t.world 2).nonce = 1 ∧
    ((tC6.world) 2).nonce = 0 :=
  ⟨rfl, rfl, rfl⟩

theorem frame_revert_and_access_list_witness :
    (applyCall runFail true cC6 false tC6 alC6).t.world = tC6.world ∧
    AccessList.le alC6 (applyCall runFail true cC6 false tC6 alC6).al :=
  ⟨((frame_revert_and_access_list runFail (fun t _ => ⟨[], by simp [runFail]⟩) (fun _ _ => rfl)
      (fun _ al => accessList_le_refl al) cC6 false tC6 alC6 true true true).1 rfl).1,
   (frame_revert_and_access_list runFail (fun t _ => ⟨[], by simp [runFail]⟩) (fun _ _ => rfl)
      (fun _ al => accessList_le_refl al) cC6 false tC6 alC6 true true true).2.1⟩

/-- Concrete frames at depths 1025 and 1026 and a trivial world for the
depth-guard scenarios. -/
def tD : Txn := ⟨fun _ => ⟨0, 100, false, false⟩, []⟩

def alD : AccessList := ⟨fun _ => false, fun _ _ => false⟩

def cD1025 : XContract := ⟨1025, 2, 5, 0, 100, 0⟩

def cD1026 : XContract := ⟨1026, 2, 5, 0, 100, 0⟩

/-- C9 counterexample: the code guards `c.Depth > int(1024)+1`, so a CALL
frame at depth 1025 — which exceeds 1024 — does not fail with the depth
error: it executes the callee and succeeds. -/
theorem depth_1025_cex :
    1024 < cD1025.depth ∧
    (applyCall runTriv true cD1025 true tD alD).res.err = none :=
  ⟨by decide, rfl⟩

/-- C9 (amended): the depth guard rejects frames whose depth exceeds 1025
(`c.Depth > int(1024)+1`): both CALL and CREATE frames then fail with the
depth error, return the frame's gas, leave state and access list untouched,
and the callee is never executed (the result does not depend on `run`). -/
theorem depth_cap (run run2 : Txn → AccessList → FrameOut)
    (e29 e3 e158 hom : Bool) (c : XContract) (isCall : Bool)
    (t : Txn) (al : AccessList) (h : 1024 + 1 < c.depth) :
    applyCall run e29 c isCall t al = ⟨t, al, ⟨c.gas, 0, some .depth⟩⟩ ∧
    applyCreate run2 e29 e3 e158 hom c t al = ⟨t, al, ⟨c.gas, 0, some .depth⟩⟩ :=
  ⟨by simp only [applyCall]; rw [if_pos h],
   by simp only [applyCreate]; rw [if_pos h]⟩

theorem depth_cap_witness :
    1024 + 1 < cD1026.depth ∧
    applyCall runTriv true cD1026 true tD alD = ⟨tD, alD, ⟨cD1026.gas, 0, some .depth⟩⟩ :=
  ⟨by decide,
   (depth_cap runTriv runTriv true true true true cD1026 true tD alD (by decide)).1⟩

/-- C8 counterexample: `Transition.Write` appends the synthetic fee-split log
unconditionally, so even a State transaction's receipt carries the
`XGRFeeSplit` log at `0x…fEE1` — refuting "emitted only for non-State
transactions". -/
theorem state_tx_fee_split_cex :
    (transitionWriteReceipt 7 .stateTx false false 0 [] 0 21000 1 2 3).logs =
      [xgrFeeSplitLog 7 1 2 3] ∧
    (xgrFeeSplitLog 7 1 2 3).addr = 0xfEE1 :=
  ⟨rfl, rfl⟩

/-- C8 (amended): every applied transaction's receipt — State transactions
included — carries the synthetic `XGRFeeSplit(donation, validator, burned)`
log, emitted from `0x…fEE1` and appended after the transaction's own logs,
with the three amounts ABI-encoded as 32-byte big-endian words. -/
theorem fee_split_log_emission (topicHash : Nat) (txType : TxType)
    (failed isCreation : Bool) (createdAddr : Nat) (stateLogs : List RLog)
    (g0 gu d v b : Nat) :
    (transitionWriteReceipt topicHash txType failed isCreation createdAddr
        stateLogs g0 gu d v b).logs = stateLogs ++ [xgrFeeSplitLog topicHash d v b] ∧
    (xgrFeeSplitLog topicHash d v b).addr = xgrFeeSplitAddr ∧
    (xgrFeeSplitLog topicHash d v b).data = be32 d ++ be32 v ++ be32 b :=
  ⟨rfl, rfl, rfl⟩

/-- C10: the `ProcessBlock` loop applies, in order, exactly the transactions
whose gas field does not exceed the header gas limit; a transaction above the
limit is skipped with no write (hence no receipt, no gas accumulation, no
state change). -/
theorem process_block_skips_overlimit {St Tx E : Type} (gasOf : Tx → Nat)
    (write : St → Tx → Except E St) (limit : Nat) (st : St) (txs : List Tx) :
    processTxs gasOf write limit st txs =
      applyAllTxs write st (txs.filter (fun tx => decide (gasOf tx ≤ limit))) := by
  induction txs generalizing st with
  | nil => rfl
  | cons tx rest ih =>
    simp only [processTxs, List.filter]
    by_cases h : limit < gasOf tx
    · rw [if_pos h]
      have hd : decide (gasOf tx ≤ limit) = false := by
        simp [Nat.not_le_of_lt h]
      rw [hd]
      exact ih st
    · rw [if_neg h]
      have hd : decide (gasOf tx ≤ limit) = true := decide_eq_true (Nat.le_of_not_lt h)
      rw [hd]
      simp only [applyAllTxs]
      cases hw : write st tx with
      | error e => rfl
      | ok st2 => exact ih st2
